import Mathlib

/-!
Verification of the graffity-app-view repository.

This file gives a shallow embedding of the two core components of the
repository and proves the frozen claims about them:

* the BMP-to-character-art renderer `decodeBMPToBitfield` (src/erc721.go,
  lines 288-441), embedded here from the decoded byte buffer onward (the
  base64 / data-URI peeling that precedes it is plain string plumbing);
* the multi-chain source registry `Server` (src/unnamed/part_001):
  `NewServer`, `Server.getServiceForChainID` and `Server.Close`;
* `ParseChainID` (src/unnamed/part_002, lines 91-97), which wraps Go's
  `strconv.ParseInt(s, 10, 64)`.

Go machine integers are modelled as `Nat` / `Int`; byte reads are
normalised with `% 256`; Go's `/` on `int` (truncation toward zero) is
`Int.tdiv`.  The one `int` computation that can overflow for buffers a
caller can actually hand the program is the pixel-data length check
`pixelDataStart + rowSize*height`, whose header operands are attacker
chosen; it is modelled with explicit 64-bit wraparound (`wrap64`).  The
remaining offset arithmetic stays far below `2^63` under the range
hypotheses of the theorems that touch it.
-/

namespace Graffity

/-- A raw byte buffer: the decoded BMP bytes.  Entries are intended to be
bytes; every read normalises with `% 256`, matching Go's `byte` type. -/
abbrev Bytes := List Nat

/-- Reading one byte of the buffer at a (Go `int`) offset.  All reads
performed by the Go code are bounds-checked before dereferencing, so the
default value is never observable through `decodeBMPToBitfield`. -/
def byteAt (b : Bytes) (i : Int) : Nat := (b.getD i.toNat 0) % 256

/-- Little-endian 16-bit read, `binary.LittleEndian.Uint16`. -/
def readU16 (b : Bytes) (i : Int) : Nat := byteAt b i + 256 * byteAt b (i + 1)

/-- Little-endian 32-bit read, `binary.LittleEndian.Uint32`. -/
def readU32 (b : Bytes) (i : Int) : Nat :=
  byteAt b i + 256 * byteAt b (i + 1) + 65536 * byteAt b (i + 2) +
    16777216 * byteAt b (i + 3)

/-- Reinterpreting a `uint32` as Go's `int32` (two's complement). -/
def toInt32 (n : Nat) : Int :=
  if n % 4294967296 < 2147483648 then ((n % 4294967296 : Nat) : Int)
  else ((n % 4294967296 : Nat) : Int) - 4294967296

/-- The five brightness characters `c0` (lightest) .. `c4` (darkest)
passed to `decodeBMPToBitfield`. -/
structure Palette where
  c0 : String
  c1 : String
  c2 : String
  c3 : String
  c4 : String
deriving DecidableEq

/-- Typed decode failures.  The Go code returns `fmt.Errorf` strings;
each constructor stands for one of the four structural error messages:
"BMP data too short", "invalid BMP signature",
"unsupported bits per pixel: %d", "BMP data incomplete". -/
inductive DecodeErr where
  | tooShort
  | badSignature
  | unsupportedDepth (bpp : Nat)
  | truncatedData
deriving DecidableEq

instance {ε α : Type} [DecidableEq ε] [DecidableEq α] :
    DecidableEq (Except ε α) := fun a b =>
  match a, b with
  | .ok x, .ok y =>
    if h : x = y then .isTrue (by rw [h]) else .isFalse (by intro hc; cases hc; exact h rfl)
  | .ok _, .error _ => .isFalse (by intro hc; cases hc)
  | .error _, .ok _ => .isFalse (by intro hc; cases hc)
  | .error x, .error y =>
    if h : x = y then .isTrue (by rw [h]) else .isFalse (by intro hc; cases hc; exact h rfl)

/-- BMP signature field, `binary.LittleEndian.Uint16(bmpData[0:2])`. -/
def bmpSignature (b : Bytes) : Nat := readU16 b 0

/-- Pixel-data offset, `int(header.DataOffset)` (erc721.go line 351). -/
def bmpDataOffset (b : Bytes) : Int := (readU32 b 10 : Nat)

/-- Width field, `int32(binary.LittleEndian.Uint32(bmpData[18:22]))`. -/
def bmpWidth (b : Bytes) : Int := toInt32 (readU32 b 18)

/-- Raw (signed) height field, before sign normalisation. -/
def bmpHeightRaw (b : Bytes) : Int := toInt32 (readU32 b 22)

/-- Height after the sign normalisation of erc721.go lines 338-341:
`if isTopDown { height = -height }`. -/
def bmpHeight (b : Bytes) : Int :=
  if bmpHeightRaw b < 0 then -bmpHeightRaw b else bmpHeightRaw b

/-- Bits-per-pixel field, `binary.LittleEndian.Uint16(bmpData[28:30])`. -/
def bmpBPP (b : Bytes) : Nat := readU16 b 28

/-- The `bytesPerPixel` computation of erc721.go lines 344-347:
`int(BitsPerPixel) / 8`, with `0` forced for the 1-bit path. -/
def bppToBytes (bpp : Nat) : Nat := if bpp = 1 then 0 else bpp / 8

/-- Row size of erc721.go line 348:
`((width*int(BitsPerPixel) + 31) / 32) * 4` with Go's truncating
integer division. -/
def goRowSize (width : Int) (bpp : Nat) : Int :=
  ((width * (bpp : Int) + 31).tdiv 32) * 4

/-- The stride formula as the spec words it: `ceil(width * bitDepth / 32)
* 4`.  Modelled from the spec's words for comparison with `goRowSize`;
the ceiling is expressed through `ceil (a / b) = -((-a) fdiv b)`. -/
def specStride (width : Int) (bpp : Nat) : Int :=
  (-((-(width * (bpp : Int))).fdiv 32)) * 4

/-- Go's 64-bit signed integer wraparound: the value of an `int64`
expression is its mathematical value reduced modulo `2^64` into
`[-2^63, 2^63)`. -/
def wrap64 (n : Int) : Int :=
  if n % (2 ^ 64) < 2 ^ 63 then n % (2 ^ 64) else n % (2 ^ 64) - 2 ^ 64

/-- Mirrors the Go row loop `for y := startY; y != endY; y += stepY`
(erc721.go lines 363-371 and 391-399): top-down runs `y = 0, 1, ...,
height-1`; bottom-up starts at `height-1` and steps `-1` down to `0`. -/
def rowOrder (isTopDown : Bool) (height : Nat) : List Nat :=
  if isTopDown then List.range height else (List.range height).reverse

/-- Brightness-to-character mapping of erc721.go lines 423-433. -/
def brightnessChar (v : Nat) (pal : Palette) : String :=
  if 204 ≤ v then pal.c0
  else if 153 ≤ v then pal.c1
  else if 102 ≤ v then pal.c2
  else if 51 ≤ v then pal.c3
  else pal.c4

/-- One pixel cell of the output.  For 1-bit images this is the body of
the inner loop at erc721.go lines 375-386; otherwise lines 403-434.
Out-of-bounds cells contribute the empty string (the Go code emits no
character for them). -/
def renderCell (b : Bytes) (bpp bytesPP : Nat) (rowOffset : Int) (x : Nat)
    (pal : Palette) : String :=
  if bpp = 1 then
    let byteOffset : Int := rowOffset + ((x / 8 : Nat) : Int)
    if byteOffset < (b.length : Int) then
      if (byteAt b byteOffset) >>> (7 - x % 8) &&& 1 = 1 then pal.c1 else pal.c0
    else ""
  else
    let pixelOffset : Int := rowOffset + ((x * bytesPP : Nat) : Int)
    if pixelOffset + (bytesPP : Int) ≤ (b.length : Int) then
      let brightness : Nat :=
        if bpp = 8 then byteAt b pixelOffset
        else if bpp = 24 ∨ bpp = 32 then
          ((byteAt b (pixelOffset + 2)) * 299 + (byteAt b (pixelOffset + 1)) * 587 +
            (byteAt b pixelOffset) * 114) / 1000 % 256
        else 128
      brightnessChar brightness pal
    else ""

/-- One output row: four spaces of indent, the cells, then a newline
(erc721.go lines 372-388 / 400-437). -/
def renderRow (b : Bytes) (bpp bytesPP : Nat) (rowOffset : Int) (w : Nat)
    (pal : Palette) : String :=
  "    " ++ String.join ((List.range w).map
    (fun x => renderCell b bpp bytesPP rowOffset x pal)) ++ "\n"

/-- The two header lines of the output (erc721.go lines 358-359). -/
def bmpHeaderLine (b : Bytes) : String :=
  "  Dimensions: " ++ toString (bmpWidth b) ++ "x" ++ toString (bmpHeight b) ++
    ", BPP: " ++ toString (bmpBPP b) ++ "\n" ++ "  Bitfield:\n"

/-- The successfully rendered output of `decodeBMPToBitfield`. -/
def bmpBody (b : Bytes) (pal : Palette) : String :=
  bmpHeaderLine b ++ String.join
    ((rowOrder (decide (bmpHeightRaw b < 0)) (bmpHeight b).toNat).map
      (fun (y : Nat) => renderRow b (bmpBPP b) (bppToBytes (bmpBPP b))
        (bmpDataOffset b + (y : Int) * goRowSize (bmpWidth b) (bmpBPP b))
        (bmpWidth b).toNat pal))

/-- Embedding of `decodeBMPToBitfield` (erc721.go lines 288-441) from the
decoded byte buffer onward.  The unused header fields (FileSize, Reserved,
Compression, resolutions, palette sizes) are parsed by the Go code but
never consulted, so they need no extractors here.  The length check
`pixelDataStart+rowSize*height > len(bmpData)` (erc721.go line 352) is a
Go `int` computation whose operands come straight from the header, so it
is evaluated with 64-bit wraparound exactly as Go does (wrapping the
whole sum once equals wrapping after every operation, since reduction
modulo `2^64` is a ring homomorphism). -/
def decodeBMPToBitfield (b : Bytes) (pal : Palette) : Except DecodeErr String :=
  if b.length < 54 then .error .tooShort
  else if bmpSignature b ≠ 0x4D42 then .error .badSignature
  else if ¬ (bmpBPP b = 1 ∨ bmpBPP b = 4 ∨ bmpBPP b = 8 ∨ bmpBPP b = 24 ∨
      bmpBPP b = 32) then .error (.unsupportedDepth (bmpBPP b))
  else if wrap64 (bmpDataOffset b +
      goRowSize (bmpWidth b) (bmpBPP b) * bmpHeight b) >
      (b.length : Int) then .error .truncatedData
  else .ok (bmpBody b pal)

/-! ## The source registry (src/unnamed/part_001)

The `Server` keeps `services map[int64]*ERC721Service` guarded by an
RWMutex.  We model the map as an association list (Go map iteration order
is unspecified; the list fixes one order, and none of the claims depends
on which order is realised).  An `ERC721Service` is abstracted to its
object identity `sid` (the pointer returned by `NewERC721Service`) and
the outcome of its `GetChainID` RPC (`none` models the call returning an
error).  The model is sequential: lock acquisition and the double-checked
read collapse to straight-line code, which is exactly the behaviour of
any single interleaving. -/

/-- An upstream source handle: `sid` is the object identity of the
`*ERC721Service`, `chainIDResult` the (deterministic) outcome of its
`GetChainID` RPC call, with `none` standing for an error. -/
structure ERC721Service where
  sid : Nat
  chainIDResult : Option Int
deriving DecidableEq

/-- The `services` map, as an association list keyed by chain id. -/
abbrev Services := List (Int × ERC721Service)

/-- Lookup in the services map. -/
def lookupAL : Services → Int → Option ERC721Service
  | [], _ => none
  | e :: rest, k => if e.1 = k then some e.2 else lookupAL rest k

/-- Map insertion `s.services[k] = v` (replace an existing key, else
append). -/
def insertAL : Services → Int → ERC721Service → Services
  | [], k, v => [(k, v)]
  | e :: rest, k, v => if e.1 = k then (k, v) :: rest else e :: insertAL rest k v

/-- Registry lookup failure: `fmt.Errorf("no RPC server configured for
chain ID %d", chainID)`, carrying the requested chain id. -/
inductive RegErr where
  | notFound (chainID : Int)
deriving DecidableEq

/-- The discovery scan of `getServiceForChainID` (part_001 lines 70-86):
walk the registered services, query each one's chain id (counting the
probe), skip those whose query errors, and memoize the first whose
self-reported id equals the requested one.  Returns the result, the
updated map, and the number of `GetChainID` probes performed. -/
def scanServices (cid : Int) (full : Services) :
    List (Int × ERC721Service) → Except RegErr ERC721Service × Services × Nat
  | [] => (.error (.notFound cid), full, 0)
  | e :: rest =>
    match e.2.chainIDResult with
    | none =>
      let r := scanServices cid full rest
      (r.1, r.2.1, r.2.2 + 1)
    | some a =>
      if a = cid then (.ok e.2, insertAL full cid e.2, 1)
      else
        let r := scanServices cid full rest
        (r.1, r.2.1, r.2.2 + 1)

/-- Embedding of `Server.getServiceForChainID` (part_001 lines 52-87):
read-locked lookup, then (on a miss) the write-locked double check,
then the discovery scan.  The third component counts `GetChainID`
probes. -/
def getServiceForChainID (st : Services) (cid : Int) :
    Except RegErr ERC721Service × Services × Nat :=
  match lookupAL st cid with
  | some service => (.ok service, st, 0)
  | none =>
    match lookupAL st cid with
    | some service => (.ok service, st, 0)
    | none => scanServices cid st st

/-- One configured entry of `config.RPCConfigs`: `sid` is the identity
of the `*ERC721Service` that `NewERC721Service` will construct for it,
and `selfChainID` the outcome of that service's `GetChainID` RPC
(`none` = the RPC errors).  Constructing the service itself
(`ethclient.Dial`) is modelled as succeeding; its failure path aborts
`NewServer` before any of the behaviour the claims describe. -/
structure RPCConfigM where
  sid : Nat
  selfChainID : Option Int
deriving DecidableEq

/-- The service `NewERC721Service` constructs for a configured entry. -/
def construct (c : RPCConfigM) : ERC721Service := ⟨c.sid, c.selfChainID⟩

/-- The key an entry ends up under: its configured chain id, except that
the sentinel `0` is replaced by the source's self-reported id. -/
def finalKey (e : Int × RPCConfigM) : Option Int :=
  if e.1 = 0 then e.2.selfChainID else some e.1

/-- The loop body of `NewServer` (part_001 lines 23-42) over the
configured entries, accumulating the services map. -/
def newServerAux : Services → List (Int × RPCConfigM) → Except String Services
  | acc, [] => .ok acc
  | acc, (cid, cfg) :: rest =>
    let service := construct cfg
    if cid = 0 then
      match cfg.selfChainID with
      | none => .error "failed to get chain ID from RPC"
      | some actual => newServerAux (insertAL acc actual service) rest
    else newServerAux (insertAL acc cid service) rest

/-- Embedding of `NewServer` (part_001 lines 19-48). -/
def NewServer (cfgs : List (Int × RPCConfigM)) : Except String Services :=
  newServerAux [] cfgs

/-- Embedding of `Server.Close` (part_001 lines 184-194): walk the map
and call `Close()` on the service stored under each key.  The result is
the list of released service identities, with multiplicity: an identity
appearing twice means that underlying service was released twice. -/
def closeReleases (st : Services) : List Nat := st.map (fun e => e.2.sid)

/-! ## ParseChainID (src/unnamed/part_002 lines 91-97)

`ParseChainID` delegates to Go's `strconv.ParseInt(s, 10, 64)`: an
optional leading sign, then one or more decimal digits (base 10 admits
no digit separators), with the value required to fit a signed 64-bit
integer; any violation, including range overflow, yields an error. -/

/-- Value of a digit string, most significant first. -/
def digitsVal (l : List Char) : Nat :=
  l.foldl (fun a c => a * 10 + (c.toNat - 48)) 0

/-- The digit-and-range phase of `strconv.ParseInt`: `ds` is the input
after the optional sign was stripped, `neg` records a leading minus.
There must be at least one character, all characters must be decimal
digits (base 10 admits no separators), and the signed value must fit in
64 bits — `ParseUint`'s cutoff plus `ParseInt`'s final range check
amount to `-(2^63) ≤ value < 2^63`, any violation erroring out. -/
def parseUintPart (ds : List Char) (neg : Bool) : Option Int :=
  if ds.isEmpty then none
  else if ds.all Char.isDigit then
    if neg then
      if digitsVal ds ≤ 2 ^ 63 then some (-(digitsVal ds : Int)) else none
    else
      if digitsVal ds < 2 ^ 63 then some ((digitsVal ds : Nat) : Int) else none
  else none

/-- Model of `strconv.ParseInt(s, 10, 64)`: strip an optional leading
sign as the Go code does, then parse the digits. -/
def parseInt64 : List Char → Option Int
  | [] => none
  | c :: rest =>
    if c == '+' then parseUintPart rest false
    else if c == '-' then parseUintPart rest true
    else parseUintPart (c :: rest) false

/-- Embedding of `ParseChainID` (part_002 lines 91-97). -/
def ParseChainID (s : String) : Except String Int :=
  match parseInt64 s.toList with
  | some v => .ok v
  | none => .error "invalid chain ID"

/-- The predicate the (amended) claim compares `ParseChainID` against: a
string spells the integer `v` in decimal when it is an optional sign
followed by at least one digit whose value (with the sign applied)
is `v`. -/
def denotesDecimalInt (s : String) (v : Int) : Prop :=
  (∃ ds : List Char, ds ≠ [] ∧ ds.all Char.isDigit = true ∧
    (s.toList = ds ∨ s.toList = '+' :: ds) ∧ v = (digitsVal ds : Int)) ∨
  (∃ ds : List Char, ds ≠ [] ∧ ds.all Char.isDigit = true ∧
    s.toList = '-' :: ds ∧ v = -(digitsVal ds : Int))

/-! ## Shared concrete inputs for witnesses and counterexamples -/

/-- A plain witness palette. -/
def pal0 : Palette := ⟨"0", "1", "2", "3", "4"⟩

/-- An 8-bit, width-1, height-2, bottom-up BMP (data offset 54). -/
def bmp8up : Bytes :=
  [0x42, 0x4D] ++ List.replicate 8 0 ++ [54, 0, 0, 0] ++ [40, 0, 0, 0] ++
  [1, 0, 0, 0] ++ [2, 0, 0, 0] ++ [1, 0] ++ [8, 0] ++ List.replicate 24 0 ++
  [10, 0, 0, 0] ++ [200, 0, 0, 0]

/-- The same image as `bmp8up` with height encoded as `-2` (top-down)
and its two stored pixel rows swapped. -/
def bmp8down : Bytes :=
  [0x42, 0x4D] ++ List.replicate 8 0 ++ [54, 0, 0, 0] ++ [40, 0, 0, 0] ++
  [1, 0, 0, 0] ++ [0xFE, 0xFF, 0xFF, 0xFF] ++ [1, 0] ++ [8, 0] ++
  List.replicate 24 0 ++ [200, 0, 0, 0] ++ [10, 0, 0, 0]

/-- A 4-bit-depth BMP, width 2, height 1, data offset 54, one padded row. -/
def bmp4bit : Bytes :=
  [0x42, 0x4D] ++ List.replicate 8 0 ++ [54, 0, 0, 0] ++ [40, 0, 0, 0] ++
  [2, 0, 0, 0] ++ [1, 0, 0, 0] ++ [1, 0] ++ [4, 0] ++ List.replicate 24 0 ++
  [0xAB, 0, 0, 0]

/-- A 24-bit BMP with width encoded as `-2` (bytes FE FF FF FF), height 1,
data offset 60, total length 58: the Go row size comes out `0` (truncating
division), so the code reports `TruncatedData` (60 > 58), while the spec's
ceiling formula gives stride `-4` and predicts success (58 ≥ 56). -/
def bmpNegWidth : Bytes :=
  [0x42, 0x4D] ++ List.replicate 8 0 ++ [60, 0, 0, 0] ++ [40, 0, 0, 0] ++
  [0xFE, 0xFF, 0xFF, 0xFF] ++ [1, 0, 0, 0] ++ [1, 0] ++ [24, 0] ++
  List.replicate 24 0 ++ List.replicate 4 0

/-- A 54-byte BMP declaring width 2^31-1, height 2^31-1, 32 bits per
pixel and data offset 0: the true required length 8589934588 * 2147483647
exceeds 2^63, Go's int64 product wraps to -17179869180, so the real code's
length check passes and no TruncatedData is reported. -/
def bmpWrap : Bytes :=
  [0x42, 0x4D] ++ List.replicate 8 0 ++ [0, 0, 0, 0] ++ [40, 0, 0, 0] ++
  [0xFF, 0xFF, 0xFF, 0x7F] ++ [0xFF, 0xFF, 0xFF, 0x7F] ++ [1, 0] ++
  [32, 0] ++ List.replicate 24 0

/-- An 8-bit BMP whose buffer stops 4 bytes short of the pixel data it
declares (width 1, height 2 needs 8 row bytes; only 4 are present). -/
def bmp8short : Bytes :=
  [0x42, 0x4D] ++ List.replicate 8 0 ++ [54, 0, 0, 0] ++ [40, 0, 0, 0] ++
  [1, 0, 0, 0] ++ [2, 0, 0, 0] ++ [1, 0] ++ [8, 0] ++ List.replicate 24 0 ++
  [10, 0, 0, 0]

/-- A 53-byte buffer (one short of the two headers). -/
def bmp53 : Bytes := 0x42 :: 0x4D :: List.replicate 51 0

/-- A 54-byte buffer whose signature bytes are zeroed out. -/
def bmpBadSig : Bytes := List.replicate 54 0

/-- A 54-byte buffer with a valid signature declaring 16 bits per pixel. -/
def bmp16bpp : Bytes :=
  [0x42, 0x4D] ++ List.replicate 26 0 ++ [16, 0] ++ List.replicate 24 0

/-! ## Association-list lemmas -/

theorem lookupAL_insertAL_self (st : Services) (k : Int) (v : ERC721Service) :
    lookupAL (insertAL st k v) k = some v := by
  induction st with
  | nil => simp [insertAL, lookupAL]
  | cons e rest ih =>
    by_cases h : e.1 = k
    · simp [insertAL, h, lookupAL]
    · simp [insertAL, h, lookupAL, ih]

theorem lookupAL_insertAL_ne (st : Services) (k k' : Int) (v : ERC721Service)
    (h : k' ≠ k) : lookupAL (insertAL st k v) k' = lookupAL st k' := by
  have hkk : ¬ (k = k') := fun hc => h hc.symm
  induction st with
  | nil => simp [insertAL, lookupAL, hkk]
  | cons e rest ih =>
    by_cases he : e.1 = k
    · have he' : ¬ (e.1 = k') := by rw [he]; exact hkk
      simp [insertAL, he, lookupAL, hkk, he']
    · simp only [insertAL, if_neg he, lookupAL]
      by_cases he' : e.1 = k'
      · simp [he']
      · simp [he', ih]

/-! ## Claim C7 -/

/-- C7: for every configured (chainID, source) pair present in the
registry, `resolve(chainID)` returns that exact source on the first call
and on every subsequent call, performing zero `GetChainID` probes and
leaving the registry unchanged. -/
theorem resolve_configured_idempotent (st : Services) (cid : Int)
    (svc : ERC721Service) (h : lookupAL st cid = some svc) :
    getServiceForChainID st cid = (.ok svc, st, 0) ∧
    getServiceForChainID (getServiceForChainID st cid).2.1 cid =
      (.ok svc, st, 0) := by
  have h1 : getServiceForChainID st cid = (.ok svc, st, 0) := by
    unfold getServiceForChainID
    rw [h]
  exact ⟨h1, by rw [h1]; exact h1⟩

/-- Witness for `resolve_configured_idempotent` at a concrete registry. -/
theorem resolve_configured_idempotent_witness :
    getServiceForChainID [((1 : Int), (⟨7, some 5⟩ : ERC721Service))] 1 =
      (.ok ⟨7, some 5⟩, [((1 : Int), (⟨7, some 5⟩ : ERC721Service))], 0) :=
  (resolve_configured_idempotent [((1 : Int), (⟨7, some 5⟩ : ERC721Service))]
    1 ⟨7, some 5⟩ (by decide)).1

/-! ## Claim C1 -/

/-- C1 counterexample: a registry built from one configured source that is
then memoized under a second (discovered) key releases that one underlying
source twice on teardown — `Server.Close` iterates the map by key and
performs no deduplication by object identity. -/
theorem close_double_release_cex :
    NewServer [((1 : Int), (⟨7, some 5⟩ : RPCConfigM))] =
      .ok [((1 : Int), (⟨7, some 5⟩ : ERC721Service))] ∧
    (getServiceForChainID [((1 : Int), (⟨7, some 5⟩ : ERC721Service))] 5).1 =
      .ok ⟨7, some 5⟩ ∧
    (closeReleases
      (getServiceForChainID [((1 : Int), (⟨7, some 5⟩ : ERC721Service))] 5).2.1).count 7
      = 2 := by decide

/-- C1 amended: teardown releases each source once per key under which it
is registered (deduplicating by key only, not by object identity), so a
source reachable under two keys is released twice. -/
theorem close_releases_once_per_key (st : Services) (sid : Nat) :
    (closeReleases st).count sid = st.countP (fun e => e.2.sid == sid) := by
  simp only [closeReleases, List.count, List.countP_map]
  rfl

/-! ## Claim C6 -/

/-- C6: structural validation fails with the corresponding typed error and
produces no rendered output: a buffer shorter than 54 bytes is
`TooShort`; a 54-byte-or-longer buffer whose first two bytes, read as a
little-endian 16-bit value, differ from 0x4D42 is `BadSignature`; a buffer
passing those checks with a declared bit depth outside {1,4,8,24,32} is
`UnsupportedDepth` (carrying that depth). -/
theorem decode_structural_errors (b : Bytes) (pal : Palette) :
    bmpSignature b = byteAt b 0 + 256 * byteAt b 1 ∧
    (b.length < 54 → decodeBMPToBitfield b pal = .error .tooShort) ∧
    (54 ≤ b.length → bmpSignature b ≠ 0x4D42 →
      decodeBMPToBitfield b pal = .error .badSignature) ∧
    (54 ≤ b.length → bmpSignature b = 0x4D42 →
      ¬ (bmpBPP b = 1 ∨ bmpBPP b = 4 ∨ bmpBPP b = 8 ∨ bmpBPP b = 24 ∨
        bmpBPP b = 32) →
      decodeBMPToBitfield b pal = .error (.unsupportedDepth (bmpBPP b))) := by
  refine ⟨rfl, ?_, ?_, ?_⟩
  · intro h
    unfold decodeBMPToBitfield
    rw [if_pos h]
  · intro h54 hsig
    unfold decodeBMPToBitfield
    rw [if_neg (by omega), if_pos hsig]
  · intro h54 hsig hbpp
    unfold decodeBMPToBitfield
    rw [if_neg (by omega), if_neg (by simp [hsig]), if_pos hbpp]

/-- Witness for `decode_structural_errors`: a 53-byte buffer, a buffer
with zeroed signature, and a buffer declaring 16 bits per pixel. -/
theorem decode_structural_errors_witness :
    decodeBMPToBitfield bmp53 pal0 = .error .tooShort ∧
    decodeBMPToBitfield bmpBadSig pal0 = .error .badSignature ∧
    decodeBMPToBitfield bmp16bpp pal0 = .error (.unsupportedDepth 16) :=
  ⟨(decode_structural_errors bmp53 pal0).2.1 (by decide),
   (decode_structural_errors bmpBadSig pal0).2.2.1 (by decide) (by decide),
   (decode_structural_errors bmp16bpp pal0).2.2.2 (by decide) (by decide)
     (by decide)⟩

/-! ## Claim C9 -/

/-- C9: a buffer declaring bit depth 4 that passes all structural checks
renders successfully, the per-pixel byte width comes out as 4/8 = 0, and
every in-bounds pixel cell (the bounds check degenerates to
rowOffset ≤ buffer length) emits palette[2], because no pixel bytes are
read and the brightness defaults to 128, which lands in the ≥ 102
bracket. -/
theorem depth4_renders_c2 (b : Bytes) (pal : Palette)
    (h54 : ¬ b.length < 54) (hsig : bmpSignature b = 0x4D42)
    (hbpp : bmpBPP b = 4)
    (htrunc : ¬ (wrap64 (bmpDataOffset b + goRowSize (bmpWidth b) (bmpBPP b) *
      bmpHeight b) > (b.length : Int))) :
    decodeBMPToBitfield b pal = .ok (bmpBody b pal) ∧
    bppToBytes 4 = 0 ∧
    (∀ rowOffset : Int, ∀ x : Nat, rowOffset ≤ (b.length : Int) →
      renderCell b 4 0 rowOffset x pal = pal.c2) := by
  refine ⟨?_, rfl, ?_⟩
  · unfold decodeBMPToBitfield
    rw [if_neg h54, if_neg (by simp [hsig]),
      if_neg (by simp [hbpp]), if_neg htrunc]
  · intro rowOffset x hro
    unfold renderCell
    rw [if_neg (by omega)]
    rw [if_pos (by simpa using hro)]
    norm_num [brightnessChar]

/-- Witness for `depth4_renders_c2` at a concrete 4-bit buffer. -/
theorem depth4_renders_c2_witness :
    decodeBMPToBitfield bmp4bit pal0 = .ok (bmpBody bmp4bit pal0) ∧
    renderCell bmp4bit 4 0 54 0 pal0 = pal0.c2 :=
  ⟨(depth4_renders_c2 bmp4bit pal0 (by decide) (by decide) (by decide)
      (by decide)).1,
   (depth4_renders_c2 bmp4bit pal0 (by decide) (by decide) (by decide)
      (by decide)).2.2 54 0 (by decide)⟩

/-! ## Claim C4 -/

/-- C4: for every in-bounds pixel of a 24-bit or 32-bit image, the
renderer reads the consecutive stored bytes as Blue, Green, Red (any
fourth byte, the alpha of a 32-bit pixel, is never read), computes the
luminance `(299*R + 587*G + 114*B) / 1000` with integer division, and
maps it with inclusive lower bounds 204/153/102/51 onto the palette; in
particular B=G=R=255 gives palette[0], B=G=R=0 gives palette[4], and a
luminance of exactly 204 gives palette[0]. -/
theorem render_bgr_luminance_palette (b : Bytes) (pal : Palette)
    (bpp bytesPP : Nat) (rowOffset : Int) (x : Nat)
    (hbpp : bpp = 24 ∨ bpp = 32) (hbytes : bytesPP = bppToBytes bpp)
    (hin : rowOffset + ((x * bytesPP : Nat) : Int) + (bytesPP : Int) ≤
      (b.length : Int)) :
    renderCell b bpp bytesPP rowOffset x pal =
      brightnessChar
        (((byteAt b (rowOffset + ((x * bytesPP : Nat) : Int) + 2)) * 299 +
          (byteAt b (rowOffset + ((x * bytesPP : Nat) : Int) + 1)) * 587 +
          (byteAt b (rowOffset + ((x * bytesPP : Nat) : Int))) * 114) / 1000)
        pal ∧
    (∀ v : Nat,
      (204 ≤ v → brightnessChar v pal = pal.c0) ∧
      (153 ≤ v → v < 204 → brightnessChar v pal = pal.c1) ∧
      (102 ≤ v → v < 153 → brightnessChar v pal = pal.c2) ∧
      (51 ≤ v → v < 102 → brightnessChar v pal = pal.c3) ∧
      (v < 51 → brightnessChar v pal = pal.c4)) ∧
    brightnessChar ((255 * 299 + 255 * 587 + 255 * 114) / 1000) pal = pal.c0 ∧
    brightnessChar ((0 * 299 + 0 * 587 + 0 * 114) / 1000) pal = pal.c4 ∧
    brightnessChar 204 pal = pal.c0 := by
  refine ⟨?_, ?_, by norm_num [brightnessChar], by norm_num [brightnessChar],
    by norm_num [brightnessChar]⟩
  · have hne1 : ¬ bpp = 1 := by rcases hbpp with h | h <;> omega
    have hne8 : ¬ bpp = 8 := by rcases hbpp with h | h <;> omega
    unfold renderCell
    rw [if_neg hne1, if_pos hin]
    have hb : ∀ i : Int, byteAt b i ≤ 255 := by
      intro i
      have := Nat.mod_lt (b.getD i.toNat 0) (show 0 < 256 by norm_num)
      unfold byteAt
      omega
    have hlum :
        ((byteAt b (rowOffset + ((x * bytesPP : Nat) : Int) + 2)) * 299 +
         (byteAt b (rowOffset + ((x * bytesPP : Nat) : Int) + 1)) * 587 +
         (byteAt b (rowOffset + ((x * bytesPP : Nat) : Int))) * 114) / 1000 <
          256 := by
      have h2 := hb (rowOffset + ((x * bytesPP : Nat) : Int) + 2)
      have h1 := hb (rowOffset + ((x * bytesPP : Nat) : Int) + 1)
      have h0 := hb (rowOffset + ((x * bytesPP : Nat) : Int))
      omega
    rw [if_neg hne8, if_pos hbpp, Nat.mod_eq_of_lt hlum]
  · intro v
    refine ⟨?_, ?_, ?_, ?_, ?_⟩ <;> intros <;> unfold brightnessChar <;>
      split_ifs <;> first | rfl | omega

/-- Witness for `render_bgr_luminance_palette` on a 3-byte white pixel. -/
theorem render_bgr_luminance_palette_witness :
    renderCell [255, 255, 255] 24 3 0 0 pal0 =
      brightnessChar
        (((byteAt [255, 255, 255] (0 + ((0 * 3 : Nat) : Int) + 2)) * 299 +
          (byteAt [255, 255, 255] (0 + ((0 * 3 : Nat) : Int) + 1)) * 587 +
          (byteAt [255, 255, 255] (0 + ((0 * 3 : Nat) : Int))) * 114) / 1000)
        pal0 :=
  (render_bgr_luminance_palette [255, 255, 255] pal0 24 3 0 0 (Or.inl rfl)
    (by decide) (by decide)).1

/-! ## Claim C5 -/

theorem goRowSize_eq_specStride (w : Int) (bpp : Nat) (hw : 0 ≤ w) :
    goRowSize w bpp = specStride w bpp := by
  unfold goRowSize specStride
  have ha : 0 ≤ w * (bpp : Int) := mul_nonneg hw (by positivity)
  rw [Int.tdiv_eq_ediv (by omega) (by norm_num),
    Int.fdiv_eq_ediv _ (by norm_num : (0 : Int) ≤ 32)]
  omega

/-- C5 counterexample: `bmpNegWidth` passes every header check (58 bytes,
valid signature, depth 24) yet the code reports `TruncatedData` even
though the buffer is at least as long as pixel-data offset plus the
spec's ceiling stride times the height — Go's truncating division
disagrees with the ceiling once `width * bitDepth ≤ -32`. -/
theorem stride_ceil_formula_cex :
    decodeBMPToBitfield bmpNegWidth pal0 = .error .truncatedData ∧
    ¬ ((bmpNegWidth.length : Int) < bmpDataOffset bmpNegWidth +
      specStride (bmpWidth bmpNegWidth) (bmpBPP bmpNegWidth) *
        bmpHeight bmpNegWidth) := by decide

theorem wrap64_eq_of_range (n : Int) (h1 : -(2 ^ 63) ≤ n)
    (h2 : n < 2 ^ 63) : wrap64 n = n := by
  unfold wrap64
  split <;> omega

theorem wrap64_le_of_nonneg_le {n m : Int} (h0 : 0 ≤ n) (h : n ≤ m) :
    wrap64 n ≤ m := by
  unfold wrap64
  split <;> omega

/-- C5 amended: for every buffer passing the header checks the render
fails with `TruncatedData` exactly when the buffer length is less than
the 64-bit-wrapped value of pixel-data offset + stride * height (height
sign-normalised) — Go evaluates that sum in wrapping `int64` — where the
stride is the code's `((width*bitDepth + 31) tdiv 32) * 4` with Go's
truncating division.  Whenever the sum lies within the `int64` range the
wrapped comparison coincides with the exact one, and whenever the width
is non-negative the stride coincides with the spec's
`ceil(width*bitDepth/32) * 4`. -/
theorem stride_truncation_exact (b : Bytes) (pal : Palette)
    (h54 : ¬ b.length < 54) (hsig : bmpSignature b = 0x4D42)
    (hsupp : bmpBPP b = 1 ∨ bmpBPP b = 4 ∨ bmpBPP b = 8 ∨ bmpBPP b = 24 ∨
      bmpBPP b = 32) :
    (0 ≤ bmpWidth b →
      goRowSize (bmpWidth b) (bmpBPP b) = specStride (bmpWidth b) (bmpBPP b)) ∧
    (decodeBMPToBitfield b pal = .error .truncatedData ↔
      (b.length : Int) < wrap64 (bmpDataOffset b +
        goRowSize (bmpWidth b) (bmpBPP b) * bmpHeight b)) ∧
    (-(2 ^ 63) ≤ bmpDataOffset b +
        goRowSize (bmpWidth b) (bmpBPP b) * bmpHeight b →
     bmpDataOffset b + goRowSize (bmpWidth b) (bmpBPP b) * bmpHeight b <
        2 ^ 63 →
     (decodeBMPToBitfield b pal = .error .truncatedData ↔
       (b.length : Int) < bmpDataOffset b +
         goRowSize (bmpWidth b) (bmpBPP b) * bmpHeight b)) := by
  have hiff : decodeBMPToBitfield b pal = .error .truncatedData ↔
      (b.length : Int) < wrap64 (bmpDataOffset b +
        goRowSize (bmpWidth b) (bmpBPP b) * bmpHeight b) := by
    unfold decodeBMPToBitfield
    rw [if_neg h54, if_neg (by simp [hsig]), if_neg (not_not_intro hsupp)]
    constructor
    · intro h
      by_contra hc
      rw [if_neg (by simpa using hc)] at h
      exact Except.noConfusion h
    · intro h
      rw [if_pos (by simpa using h)]
  refine ⟨?_, hiff, ?_⟩
  · intro hw
    exact goRowSize_eq_specStride (bmpWidth b) (bmpBPP b) hw
  · intro hlo hhi
    rw [hiff, wrap64_eq_of_range _ hlo hhi]

/-- Witness for `stride_truncation_exact`: the stride of the valid 8-bit
buffer matches the ceiling formula; dropping the final row bytes makes
the decode fail `TruncatedData` through the iff; and on the
overflow-declaring `bmpWrap` buffer the wrapped required length is
negative, so no `TruncatedData` is reported, matching the real code. -/
theorem stride_truncation_exact_witness :
    goRowSize (bmpWidth bmp8up) (bmpBPP bmp8up) =
      specStride (bmpWidth bmp8up) (bmpBPP bmp8up) ∧
    decodeBMPToBitfield bmp8short pal0 = .error .truncatedData ∧
    decodeBMPToBitfield bmpWrap pal0 ≠ .error .truncatedData :=
  ⟨(stride_truncation_exact bmp8up pal0 (by decide) (by decide)
      (by decide)).1 (by decide),
   (stride_truncation_exact bmp8short pal0 (by decide) (by decide)
      (by decide)).2.1.mpr (by decide),
   fun h => absurd ((stride_truncation_exact bmpWrap pal0 (by decide)
      (by decide) (by decide)).2.1.mp h) (by decide)⟩

/-! ## Claim C2 -/

theorem scanServices_no_match (cid : Int) (full : Services) :
    ∀ l : List (Int × ERC721Service),
    (∀ e ∈ l, e.2.chainIDResult ≠ some cid) →
    scanServices cid full l = (.error (.notFound cid), full, l.length) := by
  intro l
  induction l with
  | nil => intro _; rfl
  | cons e rest ih =>
    intro h
    have hrest := ih (fun e' he' => h e' (List.mem_cons_of_mem _ he'))
    have he := h e (List.mem_cons_self _ _)
    simp only [scanServices]
    cases hc : e.2.chainIDResult with
    | none => simp [hrest]
    | some a =>
      have ha : ¬ (a = cid) := fun hac => he (by rw [hc, hac])
      simp [ha, hrest]

theorem scanServices_find (cid : Int) (full : Services) :
    ∀ l : List (Int × ERC721Service), ∀ e0 : Int × ERC721Service,
    l.find? (fun e => e.2.chainIDResult == some cid) = some e0 →
    ∃ n, scanServices cid full l = (.ok e0.2, insertAL full cid e0.2, n) := by
  intro l
  induction l with
  | nil => intro e0 h; exact absurd h (by simp)
  | cons e rest ih =>
    intro e0 h
    rw [List.find?_cons] at h
    by_cases hp : (e.2.chainIDResult == some cid) = true
    · rw [hp] at h
      injection h with h0
      subst h0
      have hc : e.2.chainIDResult = some cid := by
        simpa using hp
      refine ⟨1, ?_⟩
      simp [scanServices, hc]
    · rw [Bool.of_not_eq_true hp] at h
      obtain ⟨n, hn⟩ := ih e0 h
      cases hc : e.2.chainIDResult with
      | none =>
        refine ⟨n + 1, ?_⟩
        simp [scanServices, hc, hn]
      | some a =>
        have ha : ¬ (a = cid) := by
          intro hac
          apply hp
          simp [hc, hac]
        refine ⟨n + 1, ?_⟩
        simp [scanServices, hc, ha, hn]

/-- C2: for a chain identifier with no registry entry, resolve probes the
registered sources' self-reported chain identifiers, skipping sources
whose probe errors rather than aborting (when no source matches, every
source has been probed — the probe count equals the registry size — and
the result is `NotFound` carrying the requested id, with the registry
unchanged); when some probed source self-reports the requested id, that
source is returned and memoized under the requested key, and a second
resolve for the same id returns it with zero probes (no re-scan). -/
theorem resolve_unconfigured_scan (st : Services) (cid : Int)
    (hmiss : lookupAL st cid = none) :
    ((∀ e ∈ st, e.2.chainIDResult ≠ some cid) →
      getServiceForChainID st cid = (.error (.notFound cid), st, st.length)) ∧
    (∀ e0 : Int × ERC721Service,
      st.find? (fun e => e.2.chainIDResult == some cid) = some e0 →
      e0.2.chainIDResult = some cid ∧
      (getServiceForChainID st cid).1 = .ok e0.2 ∧
      (getServiceForChainID st cid).2.1 = insertAL st cid e0.2 ∧
      getServiceForChainID (insertAL st cid e0.2) cid =
        (.ok e0.2, insertAL st cid e0.2, 0)) := by
  have hget : getServiceForChainID st cid = scanServices cid st st := by
    unfold getServiceForChainID
    rw [hmiss]
  constructor
  · intro hno
    rw [hget]
    exact scanServices_no_match cid st st hno
  · intro e0 hfind
    have hc : e0.2.chainIDResult = some cid := by
      have := List.find?_some hfind
      simpa using this
    obtain ⟨n, hn⟩ := scanServices_find cid st st e0 hfind
    refine ⟨hc, by rw [hget, hn], by rw [hget, hn], ?_⟩
    unfold getServiceForChainID
    rw [lookupAL_insertAL_self]

/-- A two-source registry: the source under key 1 errors on probe, the
source under key 2 self-reports chain id 9. -/
def probeReg : Services := [(1, ⟨7, none⟩), (2, ⟨8, some 9⟩)]

/-- Witness for `resolve_unconfigured_scan`: resolving id 9 skips the
erroring source, returns the matching one and memoizes it under key 9;
resolving id 55 probes both sources and fails `NotFound`. -/
theorem resolve_unconfigured_scan_witness :
    (getServiceForChainID probeReg 9).1 = .ok (⟨8, some 9⟩ : ERC721Service) ∧
    (getServiceForChainID probeReg 9).2.1 =
      insertAL probeReg 9 ⟨8, some 9⟩ ∧
    getServiceForChainID (insertAL probeReg 9 ⟨8, some 9⟩) 9 =
      (.ok ⟨8, some 9⟩, insertAL probeReg 9 ⟨8, some 9⟩, 0) ∧
    getServiceForChainID probeReg 55 =
      (.error (.notFound 55), probeReg, 2) := by
  have h := (resolve_unconfigured_scan probeReg 9 (by decide)).2
    ((2 : Int), (⟨8, some 9⟩ : ERC721Service)) (by decide)
  exact ⟨h.2.1, h.2.2.1, h.2.2.2,
    (resolve_unconfigured_scan probeReg 55 (by decide)).1 (by decide)⟩

/-! ## Claim C8 -/

theorem newServerAux_error :
    ∀ cfgs : List (Int × RPCConfigM), ∀ acc : Services,
    (∃ e ∈ cfgs, e.1 = 0 ∧ e.2.selfChainID = none) →
    newServerAux acc cfgs = .error "failed to get chain ID from RPC" := by
  intro cfgs
  induction cfgs with
  | nil => intro acc h; simp at h
  | cons c rest ih =>
    intro acc h
    obtain ⟨e, he, h0, hn⟩ := h
    rcases List.mem_cons.mp he with rfl | he'
    · simp only [newServerAux]
      rw [if_pos h0, hn]
    · simp only [newServerAux]
      by_cases hc0 : c.1 = 0
      · rw [if_pos hc0]
        cases hs : c.2.selfChainID with
        | none => rfl
        | some a => exact ih _ ⟨e, he', h0, hn⟩
      · rw [if_neg hc0]
        exact ih _ ⟨e, he', h0, hn⟩

theorem newServerAux_ok_keys :
    ∀ cfgs : List (Int × RPCConfigM), ∀ acc : Services, ∀ m : Services,
    newServerAux acc cfgs = .ok m →
    ∀ e ∈ cfgs, ∃ k, finalKey e = some k := by
  intro cfgs
  induction cfgs with
  | nil => intro acc m _ e he; simp at he
  | cons c rest ih =>
    intro acc m hok e he
    simp only [newServerAux] at hok
    by_cases hc0 : c.1 = 0
    · rw [if_pos hc0] at hok
      cases hs : c.2.selfChainID with
      | none => rw [hs] at hok; exact Except.noConfusion hok
      | some a =>
        rw [hs] at hok
        rcases List.mem_cons.mp he with rfl | he'
        · exact ⟨a, by simp [finalKey, hc0, hs]⟩
        · exact ih _ m hok e he'
    · rw [if_neg hc0] at hok
      rcases List.mem_cons.mp he with rfl | he'
      · exact ⟨e.1, by simp [finalKey, hc0]⟩
      · exact ih _ m hok e he'

theorem newServerAux_preserve :
    ∀ cfgs : List (Int × RPCConfigM), ∀ acc : Services, ∀ m : Services,
    newServerAux acc cfgs = .ok m →
    ∀ k : Int, (∀ e ∈ cfgs, finalKey e ≠ some k) →
    lookupAL m k = lookupAL acc k := by
  intro cfgs
  induction cfgs with
  | nil =>
    intro acc m hok k _
    simp only [newServerAux] at hok
    injection hok with h
    rw [h]
  | cons c rest ih =>
    intro acc m hok k hk
    simp only [newServerAux] at hok
    by_cases hc0 : c.1 = 0
    · rw [if_pos hc0] at hok
      cases hs : c.2.selfChainID with
      | none => rw [hs] at hok; exact Except.noConfusion hok
      | some a =>
        rw [hs] at hok
        have hka : k ≠ a := by
          intro hka
          exact hk c (List.mem_cons_self _ _) (by simp [finalKey, hc0, hs, hka])
        rw [ih _ m hok k (fun e he => hk e (List.mem_cons_of_mem _ he)),
          lookupAL_insertAL_ne _ _ _ _ hka]
    · rw [if_neg hc0] at hok
      have hka : k ≠ c.1 := by
        intro hka
        exact hk c (List.mem_cons_self _ _) (by simp [finalKey, hc0, hka])
      rw [ih _ m hok k (fun e he => hk e (List.mem_cons_of_mem _ he)),
        lookupAL_insertAL_ne _ _ _ _ hka]

theorem newServerAux_main :
    ∀ cfgs : List (Int × RPCConfigM), ∀ acc : Services, ∀ m : Services,
    newServerAux acc cfgs = .ok m →
    (cfgs.filterMap finalKey).Nodup →
    ∀ e ∈ cfgs, ∃ k, finalKey e = some k ∧
      lookupAL m k = some (construct e.2) := by
  intro cfgs
  induction cfgs with
  | nil => intro acc m _ _ e he; simp at he
  | cons c rest ih =>
    intro acc m hok hnd e he
    obtain ⟨k0, hk0⟩ := newServerAux_ok_keys _ _ _ hok c (List.mem_cons_self _ _)
    have hnd' : (rest.filterMap finalKey).Nodup ∧ k0 ∉ rest.filterMap finalKey := by
      rw [List.filterMap_cons, hk0] at hnd
      exact ⟨hnd.of_cons, (List.nodup_cons.mp hnd).1⟩
    have hrest_ne : ∀ e' ∈ rest, finalKey e' ≠ some k0 := by
      intro e' he' hc
      exact hnd'.2 (List.mem_filterMap.mpr ⟨e', he', hc⟩)
    have hstep :
        (if c.1 = 0 then
          match c.2.selfChainID with
          | none => Except.error "failed to get chain ID from RPC"
          | some actual => newServerAux (insertAL acc actual (construct c.2)) rest
        else newServerAux (insertAL acc c.1 (construct c.2)) rest) = .ok m := hok
    rcases List.mem_cons.mp he with rfl | he'
    · refine ⟨k0, hk0, ?_⟩
      by_cases hc0 : e.1 = 0
      · rw [if_pos hc0] at hstep
        have hs : e.2.selfChainID = some k0 := by
          simpa [finalKey, hc0] using hk0
        rw [hs] at hstep
        rw [newServerAux_preserve _ _ _ hstep k0 hrest_ne,
          lookupAL_insertAL_self]
      · rw [if_neg hc0] at hstep
        have hkc : k0 = e.1 := by
          simpa [finalKey, hc0] using hk0.symm
        rw [newServerAux_preserve _ _ _ hstep k0 hrest_ne, hkc,
          lookupAL_insertAL_self]
    · by_cases hc0 : c.1 = 0
      · rw [if_pos hc0] at hstep
        have hs : c.2.selfChainID = some k0 := by
          simpa [finalKey, hc0] using hk0
        rw [hs] at hstep
        exact ih _ m hstep hnd'.1 e he'
      · rw [if_neg hc0] at hstep
        exact ih _ m hstep hnd'.1 e he'

/-- C8: during registry initialization, every configured entry yields its
constructed source keyed under its configured chain identifier, except
that a sentinel entry (ChainID 0) is re-keyed under the chain identifier
its source self-reports before initialization completes; if any sentinel
entry's self-report query fails, the whole construction fails (the
distinct-final-keys hypothesis rules out two entries landing on the same
key, where the Go map would keep only the later one). -/
theorem newServer_keys (cfgs : List (Int × RPCConfigM)) :
    ((∃ e ∈ cfgs, e.1 = 0 ∧ e.2.selfChainID = none) →
      NewServer cfgs = .error "failed to get chain ID from RPC") ∧
    (∀ m : Services, NewServer cfgs = .ok m →
      (cfgs.filterMap finalKey).Nodup →
      ∀ e ∈ cfgs, ∃ k, finalKey e = some k ∧
        (e.1 ≠ 0 → k = e.1) ∧ (e.1 = 0 → e.2.selfChainID = some k) ∧
        lookupAL m k = some (construct e.2)) := by
  constructor
  · intro h
    exact newServerAux_error cfgs [] h
  · intro m hok hnd e he
    obtain ⟨k, hk, hl⟩ := newServerAux_main cfgs [] m hok hnd e he
    refine ⟨k, hk, ?_, ?_, hl⟩
    · intro h0
      simpa [finalKey, h0] using hk.symm
    · intro h0
      simpa [finalKey, h0] using hk

/-- Witness for `newServer_keys`: a sentinel entry re-keyed under its
self-reported id 5 next to an ordinary entry, and a failing sentinel. -/
theorem newServer_keys_witness :
    (∃ k, finalKey ((0 : Int), (⟨7, some 5⟩ : RPCConfigM)) = some k ∧
      ((0 : Int) ≠ 0 → k = 0) ∧ ((0 : Int) = 0 → some (5 : Int) = some k) ∧
      lookupAL [((5 : Int), (⟨7, some 5⟩ : ERC721Service)),
        ((2 : Int), (⟨8, some 9⟩ : ERC721Service))] k =
        some (construct ⟨7, some 5⟩)) ∧
    NewServer [((0 : Int), (⟨3, none⟩ : RPCConfigM))] =
      .error "failed to get chain ID from RPC" := by
  constructor
  · exact (newServer_keys
      [((0 : Int), (⟨7, some 5⟩ : RPCConfigM)),
       ((2 : Int), (⟨8, some 9⟩ : RPCConfigM))]).2
      [((5 : Int), (⟨7, some 5⟩ : ERC721Service)),
       ((2 : Int), (⟨8, some 9⟩ : ERC721Service))]
      (by decide) (by decide) ((0 : Int), (⟨7, some 5⟩ : RPCConfigM))
      (by decide)
  · exact (newServer_keys [((0 : Int), (⟨3, none⟩ : RPCConfigM))]).1
      ⟨((0 : Int), (⟨3, none⟩ : RPCConfigM)), by decide, rfl, rfl⟩

/-! ## Claim C10 -/

/-- C10 counterexample: `ParseChainID` accepts "-5", a string denoting a
negative integer — `strconv.ParseInt(s, 10, 64)` admits a leading minus
sign and the code adds no non-negativity check. -/
theorem parseChainID_negative_cex :
    ParseChainID "-5" = .ok (-5) ∧ (-5 : Int) < 0 := by
  constructor
  · rfl
  · decide

theorem isDigit_ne_minus {c : Char} (h : c.isDigit = true) : c ≠ '-' := by
  intro hc
  rw [hc] at h
  exact absurd h (by decide)

theorem isDigit_ne_plus {c : Char} (h : c.isDigit = true) : c ≠ '+' := by
  intro hc
  rw [hc] at h
  exact absurd h (by decide)

theorem all_digits_head {c : Char} {rest ds : List Char}
    (hl : c :: rest = ds) (hdig : ds.all Char.isDigit = true) :
    c.isDigit = true := by
  subst hl
  simp only [List.all_cons, Bool.and_eq_true] at hdig
  exact hdig.1

theorem parseUintPart_iff (ds : List Char) (neg : Bool) (v : Int) :
    parseUintPart ds neg = some v ↔
      ds ≠ [] ∧ ds.all Char.isDigit = true ∧
      ((neg = false ∧ v = (digitsVal ds : Int) ∧ v < 2 ^ 63) ∨
       (neg = true ∧ v = -(digitsVal ds : Int) ∧ -(2 ^ 63) ≤ v)) := by
  unfold parseUintPart
  by_cases he : ds.isEmpty
  · rw [if_pos he]
    have hemp : ds = [] := by simpa using he
    simp [hemp]
  · rw [if_neg he]
    have hne : ds ≠ [] := by simpa using he
    by_cases hd : ds.all Char.isDigit
    · rw [if_pos hd]
      cases neg with
      | false =>
        rw [if_neg (by simp)]
        by_cases hb : digitsVal ds < 2 ^ 63
        · rw [if_pos hb]
          constructor
          · intro h
            injection h with h
            refine ⟨hne, hd, Or.inl ⟨rfl, h.symm, ?_⟩⟩
            rw [← h]
            exact_mod_cast hb
          · rintro ⟨-, -, (⟨-, hv, -⟩ | ⟨hfa, -, -⟩)⟩
            · rw [hv]
            · exact absurd hfa (by simp)
        · rw [if_neg hb]
          constructor
          · intro h
            exact Option.noConfusion h
          · rintro ⟨-, -, (⟨-, hv, hlt⟩ | ⟨hfa, -, -⟩)⟩
            · exfalso
              apply hb
              rw [hv] at hlt
              exact_mod_cast hlt
            · exact absurd hfa (by simp)
      | true =>
        rw [if_pos rfl]
        by_cases hb : digitsVal ds ≤ 2 ^ 63
        · rw [if_pos hb]
          constructor
          · intro h
            injection h with h
            refine ⟨hne, hd, Or.inr ⟨rfl, h.symm, ?_⟩⟩
            rw [← h]
            have hcast : ((digitsVal ds : Nat) : Int) ≤ 2 ^ 63 := by
              exact_mod_cast hb
            omega
          · rintro ⟨-, -, (⟨hfa, -, -⟩ | ⟨-, hv, -⟩)⟩
            · exact absurd hfa (by simp)
            · rw [hv]
        · rw [if_neg hb]
          constructor
          · intro h
            exact Option.noConfusion h
          · rintro ⟨-, -, (⟨hfa, -, -⟩ | ⟨-, hv, hge⟩)⟩
            · exact absurd hfa (by simp)
            · exfalso
              apply hb
              rw [hv] at hge
              have hcast : ((digitsVal ds : Nat) : Int) ≤ 2 ^ 63 := by omega
              exact_mod_cast hcast
    · rw [if_neg hd]
      constructor
      · intro h
        exact Option.noConfusion h
      · rintro ⟨-, hdig, -⟩
        exact absurd hdig hd

theorem parseInt64_iff (l : List Char) (v : Int) :
    parseInt64 l = some v ↔
      (((∃ ds : List Char, ds ≠ [] ∧ ds.all Char.isDigit = true ∧
          (l = ds ∨ l = '+' :: ds) ∧ v = (digitsVal ds : Int)) ∨
        (∃ ds : List Char, ds ≠ [] ∧ ds.all Char.isDigit = true ∧
          l = '-' :: ds ∧ v = -(digitsVal ds : Int))) ∧
       -(2 ^ 63) ≤ v ∧ v < 2 ^ 63) := by
  cases l with
  | nil =>
    constructor
    · intro h
      exact Option.noConfusion h
    · rintro ⟨(⟨ds, hne, -, hl, -⟩ | ⟨ds, -, -, hl, -⟩), -, -⟩
      · rcases hl with hl | hl
        · exact absurd hl.symm hne
        · exact List.noConfusion hl
      · exact List.noConfusion hl
  | cons c rest =>
    by_cases hp : c = '+'
    · subst hp
      have hunf : parseInt64 ('+' :: rest) = parseUintPart rest false := by
        simp only [parseInt64]
        rw [if_pos (by decide)]
      rw [hunf, parseUintPart_iff]
      constructor
      · rintro ⟨hne, hdig, (⟨-, hv, hlt⟩ | ⟨hfa, -, -⟩)⟩
        · refine ⟨Or.inl ⟨rest, hne, hdig, Or.inr rfl, hv⟩, ?_, hlt⟩
          rw [hv]
          have h0 : (0 : Int) ≤ ((digitsVal rest : Nat) : Int) :=
            Int.ofNat_nonneg _
          omega
        · exact absurd hfa (by simp)
      · rintro ⟨(⟨ds, hne, hdig, hl, hv⟩ | ⟨ds, hne, hdig, hl, hv⟩), hlow, hhigh⟩
        · rcases hl with hl | hl
          · exact absurd (all_digits_head hl hdig) (by decide)
          · have hds : rest = ds := by
              injection hl
            subst hds
            exact ⟨hne, hdig, Or.inl ⟨rfl, hv, hhigh⟩⟩
        · exfalso
          injection hl with h1 h2
          exact absurd h1 (by decide)
    · by_cases hm : c = '-'
      · subst hm
        have hunf : parseInt64 ('-' :: rest) = parseUintPart rest true := by
          simp only [parseInt64]
          rw [if_neg (by decide), if_pos (by decide)]
        rw [hunf, parseUintPart_iff]
        constructor
        · rintro ⟨hne, hdig, (⟨hfa, -, -⟩ | ⟨-, hv, hge⟩)⟩
          · exact absurd hfa (by simp)
          · refine ⟨Or.inr ⟨rest, hne, hdig, rfl, hv⟩, hge, ?_⟩
            rw [hv]
            have hnn : (0 : Int) ≤ ((digitsVal rest : Nat) : Int) := by
              positivity
            omega
        · rintro ⟨(⟨ds, hne, hdig, hl, hv⟩ | ⟨ds, hne, hdig, hl, hv⟩), hlow, hhigh⟩
          · rcases hl with hl | hl
            · exact absurd (all_digits_head hl hdig) (by decide)
            · exfalso
              injection hl with h1 h2
              exact absurd h1 (by decide)
          · have hds : rest = ds := by
              injection hl
            subst hds
            exact ⟨hne, hdig, Or.inr ⟨rfl, hv, hlow⟩⟩
      · have hunf : parseInt64 (c :: rest) = parseUintPart (c :: rest) false := by
          simp only [parseInt64]
          rw [if_neg (by simp [hp]), if_neg (by simp [hm])]
        rw [hunf, parseUintPart_iff]
        constructor
        · rintro ⟨hne, hdig, (⟨-, hv, hlt⟩ | ⟨hfa, -, -⟩)⟩
          · refine ⟨Or.inl ⟨c :: rest, hne, hdig, Or.inl rfl, hv⟩, ?_, hlt⟩
            rw [hv]
            have h0 : (0 : Int) ≤ ((digitsVal (c :: rest) : Nat) : Int) :=
              Int.ofNat_nonneg _
            omega
          · exact absurd hfa (by simp)
        · rintro ⟨(⟨ds, hne, hdig, hl, hv⟩ | ⟨ds, hne, hdig, hl, hv⟩), hlow, hhigh⟩
          · rcases hl with hl | hl
            · subst hl
              exact ⟨hne, hdig, Or.inl ⟨rfl, hv, hhigh⟩⟩
            · exfalso
              injection hl with h1 h2
              exact hp h1
          · exfalso
            injection hl with h1 h2
            exact hm h1

/-- C10 amended: `ParseChainID` succeeds exactly when the input string is
an optional sign followed by one or more decimal digits whose (signed)
value fits a signed 64-bit integer; in particular strings denoting
negative integers are accepted, so the accepted chain identifiers are not
restricted to non-negative integers. -/
theorem parseChainID_accepts_int64 (s : String) (v : Int) :
    ParseChainID s = .ok v ↔
      denotesDecimalInt s v ∧ -(2 ^ 63) ≤ v ∧ v < 2 ^ 63 := by
  unfold ParseChainID denotesDecimalInt
  rw [← parseInt64_iff]
  cases hp : parseInt64 s.toList with
  | none =>
    exact ⟨fun h => Except.noConfusion h, fun h => Option.noConfusion h⟩
  | some w =>
    exact ⟨fun h => by injection h with h; rw [h],
      fun h => by injection h with h; rw [h]⟩

/-! ## Claim C3 -/

theorem goRowSize_ofNat (w bpp : Nat) :
    goRowSize (w : Int) bpp = (((w * bpp + 31) / 32 * 4 : Nat) : Int) := by
  unfold goRowSize
  rw [show ((w : Int) * (bpp : Int) + 31) = (((w * bpp + 31 : Nat) : Nat) : Int)
    by push_cast; ring]
  rw [Int.tdiv_eq_ediv (Int.ofNat_nonneg _) (by norm_num)]
  push_cast
  ring

theorem rowSize_bounds (bpp : Nat)
    (hs : bpp = 1 ∨ bpp = 4 ∨ bpp = 8 ∨ bpp = 24 ∨ bpp = 32) (w : Nat) :
    0 ≤ goRowSize (w : Int) bpp ∧
    ((w * bppToBytes bpp : Nat) : Int) ≤ goRowSize (w : Int) bpp ∧
    (((w + 7) / 8 : Nat) : Int) ≤ goRowSize (w : Int) bpp := by
  rw [goRowSize_ofNat]
  refine ⟨Int.ofNat_nonneg _, Int.ofNat_le.mpr ?_, Int.ofNat_le.mpr ?_⟩ <;>
    rcases hs with rfl | rfl | rfl | rfl | rfl <;>
    (try simp only [show bppToBytes 1 = 0 from rfl,
      show bppToBytes 4 = 0 from rfl, show bppToBytes 8 = 1 from rfl,
      show bppToBytes 24 = 3 from rfl, show bppToBytes 32 = 4 from rfl]) <;>
    omega

theorem renderCell_one (b : Bytes) (bytesPP : Nat) (o : Int) (x : Nat)
    (pal : Palette) :
    renderCell b 1 bytesPP o x pal =
      (if o + ((x / 8 : Nat) : Int) < (b.length : Int) then
        (if (byteAt b (o + ((x / 8 : Nat) : Int))) >>> (7 - x % 8) &&& 1 = 1
          then pal.c1 else pal.c0)
      else "") := by
  unfold renderCell
  rw [if_pos rfl]

theorem renderCell_notOne (b : Bytes) (bpp bytesPP : Nat) (o : Int) (x : Nat)
    (pal : Palette) (hne : ¬ bpp = 1) :
    renderCell b bpp bytesPP o x pal =
      (if o + ((x * bytesPP : Nat) : Int) + (bytesPP : Int) ≤ (b.length : Int)
        then
        brightnessChar
          (if bpp = 8 then byteAt b (o + ((x * bytesPP : Nat) : Int))
           else if bpp = 24 ∨ bpp = 32 then
             ((byteAt b (o + ((x * bytesPP : Nat) : Int) + 2)) * 299 +
              (byteAt b (o + ((x * bytesPP : Nat) : Int) + 1)) * 587 +
              (byteAt b (o + ((x * bytesPP : Nat) : Int))) * 114) / 1000 % 256
           else 128) pal
      else "") := by
  unfold renderCell
  rw [if_neg hne]

theorem map_reverse_range {α : Type} (n : Nat) (f g : Nat → α)
    (h : ∀ k, k < n → g k = f (n - 1 - k)) :
    (List.range n).map g = ((List.range n).reverse).map f := by
  apply List.ext_getElem
  · simp
  · intro i h1 h2
    have hi : i < n := by simpa using h1
    simp only [List.getElem_map, List.getElem_reverse, List.getElem_range,
      List.length_range, List.length_reverse]
    exact h i hi

theorem renderCell_mirror (b1 b2 : Bytes) (pal : Palette) (bpp : Nat)
    (hs : bpp = 1 ∨ bpp = 4 ∨ bpp = 8 ∨ bpp = 24 ∨ bpp = 32)
    (w : Nat) (o1 o2 : Int)
    (hlen : b1.length = b2.length)
    (h1 : o1 + goRowSize (w : Int) bpp ≤ (b1.length : Int))
    (h2 : o2 + goRowSize (w : Int) bpp ≤ (b1.length : Int))
    (hbytes : ∀ i : Nat, (i : Int) < goRowSize (w : Int) bpp →
      byteAt b2 (o2 + (i : Int)) = byteAt b1 (o1 + (i : Int)))
    (x : Nat) (hx : x < w) :
    renderCell b2 bpp (bppToBytes bpp) o2 x pal =
      renderCell b1 bpp (bppToBytes bpp) o1 x pal := by
  obtain ⟨hrs0, hrs1, hrs2⟩ := rowSize_bounds bpp hs w
  rcases hs with rfl | rfl | rfl | rfl | rfl
  · -- 1-bit
    have hx8 : ((x / 8 : Nat) : Int) < goRowSize (w : Int) 1 := by
      have hnat : x / 8 < (w + 7) / 8 := by omega
      have hcast : ((x / 8 : Nat) : Int) < (((w + 7) / 8 : Nat) : Int) := by
        exact_mod_cast hnat
      omega
    have hc2 : o2 + ((x / 8 : Nat) : Int) < (b2.length : Int) := by
      rw [← hlen]
      omega
    have hc1 : o1 + ((x / 8 : Nat) : Int) < (b1.length : Int) := by omega
    rw [renderCell_one, renderCell_one, if_pos hc2, if_pos hc1,
      hbytes (x / 8) hx8]
  · -- 4-bit: zero bytes per pixel, constant brightness 128
    simp only [show bppToBytes 4 = 0 from rfl]
    have hc2 : o2 + ((x * 0 : Nat) : Int) + ((0 : Nat) : Int) ≤
        (b2.length : Int) := by
      rw [← hlen]
      push_cast
      omega
    have hc1 : o1 + ((x * 0 : Nat) : Int) + ((0 : Nat) : Int) ≤
        (b1.length : Int) := by
      push_cast
      omega
    rw [renderCell_notOne b2 4 0 o2 x pal (by norm_num),
      renderCell_notOne b1 4 0 o1 x pal (by norm_num),
      if_pos hc2, if_pos hc1,
      if_neg (show ¬ (4 : Nat) = 8 by norm_num),
      if_neg (show ¬ (4 : Nat) = 8 by norm_num),
      if_neg (show ¬ ((4 : Nat) = 24 ∨ (4 : Nat) = 32) by norm_num),
      if_neg (show ¬ ((4 : Nat) = 24 ∨ (4 : Nat) = 32) by norm_num)]
  · -- 8-bit grayscale
    simp only [show bppToBytes 8 = 1 from rfl] at hrs1 ⊢
    have hxw : (x : Int) < (w : Int) := by exact_mod_cast hx
    have hc2 : o2 + ((x * 1 : Nat) : Int) + ((1 : Nat) : Int) ≤
        (b2.length : Int) := by
      rw [← hlen]
      push_cast at hrs1 ⊢
      omega
    have hc1 : o1 + ((x * 1 : Nat) : Int) + ((1 : Nat) : Int) ≤
        (b1.length : Int) := by
      push_cast at hrs1 ⊢
      omega
    have harg : byteAt b2 (o2 + ((x * 1 : Nat) : Int)) =
        byteAt b1 (o1 + ((x * 1 : Nat) : Int)) := by
      apply hbytes
      push_cast at hrs1 ⊢
      omega
    rw [renderCell_notOne b2 8 1 o2 x pal (by norm_num),
      renderCell_notOne b1 8 1 o1 x pal (by norm_num),
      if_pos hc2, if_pos hc1,
      if_pos (show (8 : Nat) = 8 from rfl),
      if_pos (show (8 : Nat) = 8 from rfl), harg]
  · -- 24-bit BGR
    simp only [show bppToBytes 24 = 3 from rfl] at hrs1 ⊢
    have hxw : (x : Int) < (w : Int) := by exact_mod_cast hx
    have hc2 : o2 + ((x * 3 : Nat) : Int) + ((3 : Nat) : Int) ≤
        (b2.length : Int) := by
      rw [← hlen]
      push_cast at hrs1 ⊢
      omega
    have hc1 : o1 + ((x * 3 : Nat) : Int) + ((3 : Nat) : Int) ≤
        (b1.length : Int) := by
      push_cast at hrs1 ⊢
      omega
    have h0 : byteAt b2 (o2 + ((x * 3 : Nat) : Int)) =
        byteAt b1 (o1 + ((x * 3 : Nat) : Int)) := by
      apply hbytes
      push_cast at hrs1 ⊢
      omega
    have hbyte1 : byteAt b2 (o2 + ((x * 3 : Nat) : Int) + 1) =
        byteAt b1 (o1 + ((x * 3 : Nat) : Int) + 1) := by
      have hb := hbytes (x * 3 + 1) (by push_cast at hrs1 ⊢; omega)
      calc byteAt b2 (o2 + ((x * 3 : Nat) : Int) + 1)
          = byteAt b2 (o2 + ((x * 3 + 1 : Nat) : Int)) := by
            congr 1
            push_cast
            ring
        _ = byteAt b1 (o1 + ((x * 3 + 1 : Nat) : Int)) := hb
        _ = byteAt b1 (o1 + ((x * 3 : Nat) : Int) + 1) := by
            congr 1
            push_cast
            ring
    have hbyte2 : byteAt b2 (o2 + ((x * 3 : Nat) : Int) + 2) =
        byteAt b1 (o1 + ((x * 3 : Nat) : Int) + 2) := by
      have hb := hbytes (x * 3 + 2) (by push_cast at hrs1 ⊢; omega)
      calc byteAt b2 (o2 + ((x * 3 : Nat) : Int) + 2)
          = byteAt b2 (o2 + ((x * 3 + 2 : Nat) : Int)) := by
            congr 1
            push_cast
            ring
        _ = byteAt b1 (o1 + ((x * 3 + 2 : Nat) : Int)) := hb
        _ = byteAt b1 (o1 + ((x * 3 : Nat) : Int) + 2) := by
            congr 1
            push_cast
            ring
    rw [renderCell_notOne b2 24 3 o2 x pal (by norm_num),
      renderCell_notOne b1 24 3 o1 x pal (by norm_num),
      if_pos hc2, if_pos hc1,
      if_neg (show ¬ (24 : Nat) = 8 by norm_num),
      if_neg (show ¬ (24 : Nat) = 8 by norm_num),
      if_pos (show (24 : Nat) = 24 ∨ (24 : Nat) = 32 from Or.inl rfl),
      if_pos (show (24 : Nat) = 24 ∨ (24 : Nat) = 32 from Or.inl rfl),
      h0, hbyte1, hbyte2]
  · -- 32-bit BGRA (alpha byte never read)
    simp only [show bppToBytes 32 = 4 from rfl] at hrs1 ⊢
    have hxw : (x : Int) < (w : Int) := by exact_mod_cast hx
    have hc2 : o2 + ((x * 4 : Nat) : Int) + ((4 : Nat) : Int) ≤
        (b2.length : Int) := by
      rw [← hlen]
      push_cast at hrs1 ⊢
      omega
    have hc1 : o1 + ((x * 4 : Nat) : Int) + ((4 : Nat) : Int) ≤
        (b1.length : Int) := by
      push_cast at hrs1 ⊢
      omega
    have h0 : byteAt b2 (o2 + ((x * 4 : Nat) : Int)) =
        byteAt b1 (o1 + ((x * 4 : Nat) : Int)) := by
      apply hbytes
      push_cast at hrs1 ⊢
      omega
    have hbyte1 : byteAt b2 (o2 + ((x * 4 : Nat) : Int) + 1) =
        byteAt b1 (o1 + ((x * 4 : Nat) : Int) + 1) := by
      have hb := hbytes (x * 4 + 1) (by push_cast at hrs1 ⊢; omega)
      calc byteAt b2 (o2 + ((x * 4 : Nat) : Int) + 1)
          = byteAt b2 (o2 + ((x * 4 + 1 : Nat) : Int)) := by
            congr 1
            push_cast
            ring
        _ = byteAt b1 (o1 + ((x * 4 + 1 : Nat) : Int)) := hb
        _ = byteAt b1 (o1 + ((x * 4 : Nat) : Int) + 1) := by
            congr 1
            push_cast
            ring
    have hbyte2 : byteAt b2 (o2 + ((x * 4 : Nat) : Int) + 2) =
        byteAt b1 (o1 + ((x * 4 : Nat) : Int) + 2) := by
      have hb := hbytes (x * 4 + 2) (by push_cast at hrs1 ⊢; omega)
      calc byteAt b2 (o2 + ((x * 4 : Nat) : Int) + 2)
          = byteAt b2 (o2 + ((x * 4 + 2 : Nat) : Int)) := by
            congr 1
            push_cast
            ring
        _ = byteAt b1 (o1 + ((x * 4 + 2 : Nat) : Int)) := hb
        _ = byteAt b1 (o1 + ((x * 4 : Nat) : Int) + 2) := by
            congr 1
            push_cast
            ring
    rw [renderCell_notOne b2 32 4 o2 x pal (by norm_num),
      renderCell_notOne b1 32 4 o1 x pal (by norm_num),
      if_pos hc2, if_pos hc1,
      if_neg (show ¬ (32 : Nat) = 8 by norm_num),
      if_neg (show ¬ (32 : Nat) = 8 by norm_num),
      if_pos (show (32 : Nat) = 24 ∨ (32 : Nat) = 32 from Or.inr rfl),
      if_pos (show (32 : Nat) = 24 ∨ (32 : Nat) = 32 from Or.inr rfl),
      h0, hbyte1, hbyte2]

theorem renderRow_mirror (b1 b2 : Bytes) (pal : Palette) (bpp : Nat)
    (hs : bpp = 1 ∨ bpp = 4 ∨ bpp = 8 ∨ bpp = 24 ∨ bpp = 32)
    (w : Nat) (o1 o2 rs : Int)
    (hrs : rs = goRowSize (w : Int) bpp)
    (hlen : b1.length = b2.length)
    (h1 : o1 + rs ≤ (b1.length : Int))
    (h2 : o2 + rs ≤ (b1.length : Int))
    (hbytes : ∀ i : Nat, (i : Int) < rs →
      byteAt b2 (o2 + (i : Int)) = byteAt b1 (o1 + (i : Int))) :
    renderRow b2 bpp (bppToBytes bpp) o2 w pal =
      renderRow b1 bpp (bppToBytes bpp) o1 w pal := by
  subst hrs
  unfold renderRow
  have hmap : (List.range w).map
      (fun x => renderCell b2 bpp (bppToBytes bpp) o2 x pal) =
      (List.range w).map
      (fun x => renderCell b1 bpp (bppToBytes bpp) o1 x pal) :=
    List.map_congr_left (fun x hx =>
      renderCell_mirror b1 b2 pal bpp hs w o1 o2 hlen h1 h2 hbytes x
        (List.mem_range.mp hx))
  rw [hmap]

/-- C3: the renderer emits rows in stored order exactly when the height
field is negative (top-down), and in reverse stored order when it is
positive (bottom-up); consequently two buffers identical in every parsed
field except for oppositely-signed heights, whose stored pixel rows are
arranged in mutually reversed order, render to the same text output. -/
theorem render_height_sign_mirror (b1 b2 : Bytes) (pal : Palette) (N : Nat)
    (hlen : b1.length = b2.length)
    (h54 : ¬ b1.length < 54)
    (hsig1 : bmpSignature b1 = 0x4D42) (hsig2 : bmpSignature b2 = 0x4D42)
    (hbpp : bmpBPP b2 = bmpBPP b1)
    (hsupp : bmpBPP b1 = 1 ∨ bmpBPP b1 = 4 ∨ bmpBPP b1 = 8 ∨
      bmpBPP b1 = 24 ∨ bmpBPP b1 = 32)
    (hw : bmpWidth b2 = bmpWidth b1) (hwpos : 0 ≤ bmpWidth b1)
    (hoff : bmpDataOffset b2 = bmpDataOffset b1)
    (hNpos : 0 < N)
    (hh1 : bmpHeightRaw b1 = (N : Int)) (hh2 : bmpHeightRaw b2 = -(N : Int))
    (htrunc : bmpDataOffset b1 +
      goRowSize (bmpWidth b1) (bmpBPP b1) * (N : Int) ≤ (b1.length : Int))
    (hrows : ∀ j : Nat, j < N → ∀ i : Nat,
      i < (goRowSize (bmpWidth b1) (bmpBPP b1)).toNat →
      byteAt b2 (bmpDataOffset b1 +
        (j : Int) * goRowSize (bmpWidth b1) (bmpBPP b1) + (i : Int)) =
      byteAt b1 (bmpDataOffset b1 +
        ((N - 1 - j : Nat) : Int) * goRowSize (bmpWidth b1) (bmpBPP b1) +
        (i : Int))) :
    decodeBMPToBitfield b2 pal = .ok (bmpHeaderLine b2 ++ String.join
      ((List.range N).map (fun (y : Nat) => renderRow b2 (bmpBPP b2)
        (bppToBytes (bmpBPP b2))
        (bmpDataOffset b2 + (y : Int) * goRowSize (bmpWidth b2) (bmpBPP b2))
        (bmpWidth b2).toNat pal))) ∧
    decodeBMPToBitfield b1 pal = .ok (bmpHeaderLine b1 ++ String.join
      (((List.range N).reverse).map (fun (y : Nat) => renderRow b1 (bmpBPP b1)
        (bppToBytes (bmpBPP b1))
        (bmpDataOffset b1 + (y : Int) * goRowSize (bmpWidth b1) (bmpBPP b1))
        (bmpWidth b1).toNat pal))) ∧
    decodeBMPToBitfield b1 pal = decodeBMPToBitfield b2 pal := by
  have hNpos' : (0 : Int) < (N : Int) := by exact_mod_cast hNpos
  have hH1 : bmpHeight b1 = (N : Int) := by
    unfold bmpHeight
    rw [hh1, if_neg (by omega)]
  have hH2 : bmpHeight b2 = (N : Int) := by
    unfold bmpHeight
    rw [hh2, if_pos (by omega)]
    ring
  have hd1 : decide (bmpHeightRaw b1 < 0) = false := by
    apply decide_eq_false
    rw [hh1]
    omega
  have hd2 : decide (bmpHeightRaw b2 < 0) = true := by
    apply decide_eq_true
    rw [hh2]
    omega
  have hwcast : ((bmpWidth b1).toNat : Int) = bmpWidth b1 :=
    Int.toNat_of_nonneg hwpos
  have hrseq : goRowSize (bmpWidth b1) (bmpBPP b1) =
      goRowSize (((bmpWidth b1).toNat : Nat) : Int) (bmpBPP b1) := by
    rw [hwcast]
  have hrs0 : 0 ≤ goRowSize (bmpWidth b1) (bmpBPP b1) := by
    rw [hrseq]
    exact (rowSize_bounds (bmpBPP b1) hsupp (bmpWidth b1).toNat).1
  have hX0 : 0 ≤ bmpDataOffset b1 +
      goRowSize (bmpWidth b1) (bmpBPP b1) * (N : Int) := by
    have hoff0 : 0 ≤ bmpDataOffset b1 := by
      unfold bmpDataOffset
      exact Int.ofNat_nonneg _
    have hN0 : (0 : Int) ≤ (N : Int) := Int.ofNat_nonneg _
    have hmul := mul_nonneg hrs0 hN0
    omega
  have hwrap : wrap64 (bmpDataOffset b1 +
      goRowSize (bmpWidth b1) (bmpBPP b1) * (N : Int)) ≤ (b1.length : Int) :=
    wrap64_le_of_nonneg_le hX0 htrunc
  have hdec1 : decodeBMPToBitfield b1 pal = .ok (bmpBody b1 pal) := by
    unfold decodeBMPToBitfield
    rw [if_neg h54, if_neg (by simp [hsig1]), if_neg (not_not_intro hsupp),
      if_neg (by rw [hH1]; exact not_lt.mpr hwrap)]
  have hlen54 : ¬ b2.length < 54 := by
    rw [← hlen]
    exact h54
  have hsupp2 : bmpBPP b2 = 1 ∨ bmpBPP b2 = 4 ∨ bmpBPP b2 = 8 ∨
      bmpBPP b2 = 24 ∨ bmpBPP b2 = 32 := by
    rw [hbpp]
    exact hsupp
  have htrunc2 : ¬ (wrap64 (bmpDataOffset b2 +
      goRowSize (bmpWidth b2) (bmpBPP b2) * bmpHeight b2) >
      (b2.length : Int)) := by
    rw [hoff, hw, hbpp, hH2, ← hlen]
    exact not_lt.mpr hwrap
  have hdec2 : decodeBMPToBitfield b2 pal = .ok (bmpBody b2 pal) := by
    unfold decodeBMPToBitfield
    rw [if_neg hlen54, if_neg (by simp [hsig2]),
      if_neg (not_not_intro hsupp2), if_neg htrunc2]
  have hbody1 : bmpBody b1 pal = bmpHeaderLine b1 ++ String.join
      (((List.range N).reverse).map (fun (y : Nat) => renderRow b1 (bmpBPP b1)
        (bppToBytes (bmpBPP b1))
        (bmpDataOffset b1 + (y : Int) * goRowSize (bmpWidth b1) (bmpBPP b1))
        (bmpWidth b1).toNat pal)) := by
    unfold bmpBody rowOrder
    rw [hd1, hH1, if_neg (show ¬ (false = true) by decide),
      Int.toNat_ofNat]
  have hbody2 : bmpBody b2 pal = bmpHeaderLine b2 ++ String.join
      ((List.range N).map (fun (y : Nat) => renderRow b2 (bmpBPP b2)
        (bppToBytes (bmpBPP b2))
        (bmpDataOffset b2 + (y : Int) * goRowSize (bmpWidth b2) (bmpBPP b2))
        (bmpWidth b2).toNat pal)) := by
    unfold bmpBody rowOrder
    rw [hd2, hH2, if_pos (show (true = true) from rfl), Int.toNat_ofNat]
  refine ⟨by rw [hdec2, hbody2], by rw [hdec1, hbody1], ?_⟩
  have hheader : bmpHeaderLine b2 = bmpHeaderLine b1 := by
    unfold bmpHeaderLine
    rw [hw, hbpp, hH1, hH2]
  have hbody2' : bmpBody b2 pal = bmpHeaderLine b2 ++ String.join
      ((List.range N).map (fun (y : Nat) => renderRow b2 (bmpBPP b1)
        (bppToBytes (bmpBPP b1))
        (bmpDataOffset b1 + (y : Int) * goRowSize (bmpWidth b1) (bmpBPP b1))
        (bmpWidth b1).toNat pal)) := by
    rw [hbody2, hoff, hw, hbpp]
  have hjoin : (List.range N).map (fun (y : Nat) => renderRow b2 (bmpBPP b1)
        (bppToBytes (bmpBPP b1))
        (bmpDataOffset b1 + (y : Int) * goRowSize (bmpWidth b1) (bmpBPP b1))
        (bmpWidth b1).toNat pal) =
      ((List.range N).reverse).map (fun (y : Nat) => renderRow b1 (bmpBPP b1)
        (bppToBytes (bmpBPP b1))
        (bmpDataOffset b1 + (y : Int) * goRowSize (bmpWidth b1) (bmpBPP b1))
        (bmpWidth b1).toNat pal) := by
    apply map_reverse_range
    intro k hk
    have hk1 : ((k : Int) + 1) * goRowSize (bmpWidth b1) (bmpBPP b1) ≤
        (N : Int) * goRowSize (bmpWidth b1) (bmpBPP b1) := by
      apply mul_le_mul_of_nonneg_right _ hrs0
      have : k + 1 ≤ N := hk
      exact_mod_cast this
    have hk2 : (((N - 1 - k : Nat) : Int) + 1) *
        goRowSize (bmpWidth b1) (bmpBPP b1) ≤
        (N : Int) * goRowSize (bmpWidth b1) (bmpBPP b1) := by
      apply mul_le_mul_of_nonneg_right _ hrs0
      have : (N - 1 - k) + 1 ≤ N := by omega
      exact_mod_cast this
    apply renderRow_mirror b1 b2 pal (bmpBPP b1) hsupp (bmpWidth b1).toNat
      _ _ (goRowSize (bmpWidth b1) (bmpBPP b1)) hrseq hlen
    · calc bmpDataOffset b1 +
          ((N - 1 - k : Nat) : Int) * goRowSize (bmpWidth b1) (bmpBPP b1) +
          goRowSize (bmpWidth b1) (bmpBPP b1)
          = bmpDataOffset b1 + (((N - 1 - k : Nat) : Int) + 1) *
            goRowSize (bmpWidth b1) (bmpBPP b1) := by ring
        _ ≤ bmpDataOffset b1 + (N : Int) *
            goRowSize (bmpWidth b1) (bmpBPP b1) := by linarith [hk2]
        _ = bmpDataOffset b1 +
            goRowSize (bmpWidth b1) (bmpBPP b1) * (N : Int) := by ring
        _ ≤ (b1.length : Int) := htrunc
    · calc bmpDataOffset b1 +
          (k : Int) * goRowSize (bmpWidth b1) (bmpBPP b1) +
          goRowSize (bmpWidth b1) (bmpBPP b1)
          = bmpDataOffset b1 + ((k : Int) + 1) *
            goRowSize (bmpWidth b1) (bmpBPP b1) := by ring
        _ ≤ bmpDataOffset b1 + (N : Int) *
            goRowSize (bmpWidth b1) (bmpBPP b1) := by linarith [hk1]
        _ = bmpDataOffset b1 +
            goRowSize (bmpWidth b1) (bmpBPP b1) * (N : Int) := by ring
        _ ≤ (b1.length : Int) := htrunc
    · intro i hi
      exact hrows k hk i (by omega)
  rw [hdec1, hdec2, hbody1, hbody2', hheader, hjoin]

/-- Witness for `render_height_sign_mirror`: the concrete bottom-up and
top-down 8-bit buffers with mutually reversed pixel rows decode to the
same text. -/
theorem render_height_sign_mirror_witness :
    decodeBMPToBitfield bmp8up pal0 = decodeBMPToBitfield bmp8down pal0 :=
  (render_height_sign_mirror bmp8up bmp8down pal0 2 (by decide) (by decide)
    (by decide) (by decide) (by decide) (by decide) (by decide) (by decide)
    (by decide) (by decide) (by decide) (by decide) (by decide)
    (by decide)).2.2

end Graffity
